import Mathlib

/-!
Shallow embedding of the asteroids game core (src/main.rs) and proofs of the
spec claims about it.

Conventions of the embedding:
* `f32` scalars are embedded as exact rationals `ℚ`; the game state never
  involves rounding-sensitive reasoning in the claims under verification.
* `Vec3::distance(p, q) < r` (an `f32` square-root comparison) is embedded
  without square roots as `0 ≤ r ∧ distSq p q < r ^ 2`, which is equivalent
  because Euclidean distance is the nonnegative square root of `distSq`;
  bridge lemmas (`dist_lt_eq_true_iff`, `dist_gt_eq_true_iff`) prove the
  equivalence against `Real.sqrt`.
* Bevy's `Timer` (used in `TimerMode::Once` by every timer the embedded
  systems touch) is embedded with its `duration`, `elapsed` and `finished`
  fields and the `tick`/`reset`/`from_seconds` operations of bevy 0.10.
* Bevy `Commands` (entity spawns and despawns) are deferred: they are
  recorded during a system's run and applied when the system finishes.  The
  embedding mirrors this: `check_collisions` accumulates a despawn list and
  applies it only at the end, `shoot` appends its spawned bullets at the end.
* `f32` trigonometry (`cos`, `sin`) and the irrational constant
  `PLAYER_TURN_SPEED = π / 24` do not admit an exact rational embedding;
  they enter only as data (bullet velocity, ship angle), never as logic, so
  they are passed as an oracle parameter (`TrigOracle`) and a rational
  parameter respectively.  No claim depends on their values.
-/

namespace Asteroids

/-! ### Constants (src/main.rs lines 8-23) -/

def PLAYER_SIZE : ℚ := 10
def PLAYER_THRUST : ℚ := 5
def PLAYER_SHOOT_DELAY : ℚ := 1/2
def PLAYER_CLEAR_RADIUS : ℚ := 100
def BULLET_SPEED : ℚ := 300
def BULLET_LIFETIME : ℚ := 3
def BULLET_RADIUS : ℚ := 1
def ASTEROID_SPEED : ℚ := 50
def ASTEROID_RADIUS : ℚ := 20
def ASTEROID_COUNT : Nat := 10

/-! ### Vectors -/

/-- 2D vector (glam `Vec2`), exact rational components. -/
structure Vec2 where
  x : ℚ
  y : ℚ
deriving DecidableEq

/-- 3D vector (glam `Vec3`), exact rational components. -/
structure Vec3 where
  x : ℚ
  y : ℚ
  z : ℚ
deriving DecidableEq

/-- Squared Euclidean distance between two `Vec3`. -/
def distSq (p q : Vec3) : ℚ :=
  (p.x - q.x) ^ 2 + (p.y - q.y) ^ 2 + (p.z - q.z) ^ 2

/-- Embedding of the source comparison `p.distance(q) < r`.  The distance is
the nonnegative square root of `distSq p q`, so the comparison holds iff
`0 ≤ r` and `distSq p q < r ^ 2`; this avoids square roots and is exact. -/
def dist_lt (p q : Vec3) (r : ℚ) : Bool :=
  decide (0 ≤ r ∧ distSq p q < r ^ 2)

/-- Embedding of the source comparison `p.distance(q) > s` (used, after
rearrangement, by the asteroid spawn loop).  Holds iff `s < 0` or
`s ^ 2 < distSq p q`. -/
def dist_gt (p q : Vec3) (s : ℚ) : Bool :=
  decide (s < 0 ∨ s ^ 2 < distSq p q)

lemma distSq_nonneg (p q : Vec3) : 0 ≤ distSq p q := by
  unfold distSq
  positivity

/-- Faithfulness of the square-root-free embedding of `distance < r`. -/
lemma dist_lt_eq_true_iff (p q : Vec3) (r : ℚ) :
    dist_lt p q r = true ↔ Real.sqrt ((distSq p q : ℚ) : ℝ) < (r : ℝ) := by
  unfold dist_lt
  rcases lt_or_le 0 r with hr | hr
  · rw [Real.sqrt_lt' (by exact_mod_cast hr)]
    simp only [decide_eq_true_eq]
    constructor
    · rintro ⟨-, h⟩
      exact_mod_cast h
    · intro h
      exact ⟨le_of_lt hr, by exact_mod_cast h⟩
  · constructor
    · intro h
      simp only [decide_eq_true_eq] at h
      have h2 := h.2
      have h0 : (0 : ℚ) ≤ distSq p q := distSq_nonneg p q
      have : r = 0 := le_antisymm hr h.1
      subst this
      norm_num at h2
      exact absurd h2 (not_lt.mpr h0)
    · intro h
      have h0 : (0 : ℝ) ≤ Real.sqrt ((distSq p q : ℚ) : ℝ) := Real.sqrt_nonneg _
      have : (0 : ℝ) < (r : ℝ) := lt_of_le_of_lt h0 h
      have : (0 : ℚ) < r := by exact_mod_cast this
      exact absurd this (not_lt.mpr hr)

/-- Faithfulness of the square-root-free embedding of `distance > s`. -/
lemma dist_gt_eq_true_iff (p q : Vec3) (s : ℚ) :
    dist_gt p q s = true ↔ (s : ℝ) < Real.sqrt ((distSq p q : ℚ) : ℝ) := by
  unfold dist_gt
  rcases lt_or_le s 0 with hs | hs
  · constructor
    · intro _
      calc (s : ℝ) < 0 := by exact_mod_cast hs
        _ ≤ Real.sqrt ((distSq p q : ℚ) : ℝ) := Real.sqrt_nonneg _
    · intro _
      simp only [decide_eq_true_eq]
      exact Or.inl hs
  · rw [Real.lt_sqrt (by exact_mod_cast hs)]
    simp only [decide_eq_true_eq]
    constructor
    · rintro (h | h)
      · exact absurd h (not_lt.mpr hs)
      · exact_mod_cast h
    · intro h
      exact Or.inr (by exact_mod_cast h)

/-! ### Bevy `Timer` (bevy 0.10, `TimerMode::Once`)

Every timer touched by the embedded systems (`Ship::shoot_timer` and the
bullets' `LimitedLifetime::timer`) is a `TimerMode::Once` timer, so the mode
field is omitted.  `tick` follows bevy: a finished once-timer ignores further
ticks; otherwise elapsed time accumulates, and on reaching the duration the
timer clamps `elapsed` to `duration` and sets `finished`. -/

structure Timer where
  duration : ℚ
  elapsed : ℚ
  finished : Bool
deriving DecidableEq

/-- `Timer::from_seconds(d, TimerMode::Once)`. -/
def Timer.from_seconds (d : ℚ) : Timer :=
  { duration := d, elapsed := 0, finished := false }

/-- `Timer::default()`: zero duration, nothing elapsed, not yet finished. -/
def Timer.timerDefault : Timer :=
  { duration := 0, elapsed := 0, finished := false }

/-- `Timer::reset()`. -/
def Timer.reset (t : Timer) : Timer :=
  { t with elapsed := 0, finished := false }

/-- `Timer::remaining_secs()`. -/
def Timer.remaining (t : Timer) : ℚ :=
  t.duration - t.elapsed

/-- `Timer::tick(delta)` for a `TimerMode::Once` timer. -/
def Timer.tick (t : Timer) (delta : ℚ) : Timer :=
  if t.finished then t
  else
    let e := t.elapsed + delta
    if t.duration ≤ e then { t with elapsed := t.duration, finished := true }
    else { t with elapsed := e, finished := false }

/-- Well-formedness of a timer state: elapsed time lies in `[0, duration]`.
Holds for every timer the embedded program constructs and is preserved by
`tick` (for nonnegative `delta`). -/
def wfTimer (t : Timer) : Prop :=
  0 ≤ t.elapsed ∧ t.elapsed ≤ t.duration

lemma wfTimer_tick {t : Timer} {delta : ℚ} (hd : 0 ≤ delta) (hw : wfTimer t) :
    wfTimer (t.tick delta) := by
  obtain ⟨h0, h1⟩ := hw
  unfold Timer.tick
  split
  · exact ⟨h0, h1⟩
  · dsimp only
    split
    · exact ⟨le_trans h0 h1, le_refl _⟩
    · rename_i hlt
      refine ⟨?_, ?_⟩
      · show 0 ≤ t.elapsed + delta
        linarith
      · show t.elapsed + delta ≤ t.duration
        exact le_of_not_le hlt

/-! ### Entities and world state

Entities are keyed by a `Nat` id standing in for bevy's opaque `Entity`
handle.  The three entity kinds of the game carry exactly the components
their bundles attach in the source (`PlayerBundle`, `BulletBundle`,
`AsteroidBundle`). -/

/-- Oracle supplying the values of `f32::cos` and `f32::sin`; the embedded
systems use these values only as data (velocities), never in control flow. -/
structure TrigOracle where
  cos : ℚ → ℚ
  sin : ℚ → ℚ

/-- A ship entity: `Ship` component fields plus its `Transform` translation
and `Velocity` (the `PlayerBundle` in the source). -/
structure ShipE where
  id : Nat
  translation : Vec3
  velocity : Vec2
  angle : ℚ
  thrusting : Bool
  shoot_requested : Bool
  shoot_timer : Timer
deriving DecidableEq

/-- A bullet entity (`BulletBundle`): `Transform` translation, `Velocity`,
and the `LimitedLifetime` timer. -/
structure BulletE where
  id : Nat
  translation : Vec3
  velocity : Vec2
  limited_lifetime : Timer
deriving DecidableEq

/-- An asteroid entity (`AsteroidBundle`): `Transform` translation,
`Velocity`, and the `Asteroid` component's radius. -/
structure AsteroidE where
  id : Nat
  translation : Vec3
  velocity : Vec2
  radius : ℚ
deriving DecidableEq

/-- The payload of a bullet spawned by `shoot`, before the deferred
`Commands::spawn` assigns it an entity id. -/
structure BulletSpawn where
  translation : Vec3
  velocity : Vec2
  limited_lifetime : Timer
deriving DecidableEq

/-- The simulation-relevant world: the entity stores, the `Game` score and
the next fresh entity id. -/
structure World where
  ships : List ShipE
  bullets : List BulletE
  asteroids : List AsteroidE
  score : Int
  nextId : Nat
deriving DecidableEq

/-- Keyboard state read by `handle_input` and `shoot` intents (keys A, D, W,
Space, S). -/
structure InputState where
  keyA : Bool
  keyD : Bool
  keyW : Bool
  keySpace : Bool
  keyS : Bool
deriving DecidableEq

/-! ### `handle_input` (src/main.rs lines 213-230) -/

/-- Per-ship body of the `handle_input` loop.  `turnSpeed` embeds the
irrational constant `PLAYER_TURN_SPEED = π / 24`. -/
def handle_input_ship (inp : InputState) (turnSpeed : ℚ) (trig : TrigOracle)
    (s : ShipE) : ShipE :=
  let s := if inp.keyA then { s with angle := s.angle + turnSpeed } else s
  let s := if inp.keyD then { s with angle := s.angle - turnSpeed } else s
  let s :=
    if inp.keyW then
      { s with
        velocity := ⟨s.velocity.x + trig.cos s.angle * PLAYER_THRUST,
                     s.velocity.y + trig.sin s.angle * PLAYER_THRUST⟩,
        thrusting := true }
    else { s with thrusting := false }
  { s with shoot_requested := inp.keySpace || inp.keyS }

/-- The `handle_input` system: applies the loop body to every ship. -/
def handle_inputW (inp : InputState) (turnSpeed : ℚ) (trig : TrigOracle)
    (w : World) : World :=
  { w with ships := w.ships.map (handle_input_ship inp turnSpeed trig) }

/-! ### `shoot` (src/main.rs lines 298-329) -/

/-- Per-ship body of the `shoot` loop: tick the shoot timer, and if fire is
requested and the timer has finished, replace the timer by a fresh
`PLAYER_SHOOT_DELAY` once-timer (then `reset` it, as the source does) and
spawn a bullet at the ship's position whose velocity is the ship velocity
plus `BULLET_SPEED` in the facing direction, with a fresh
`BULLET_LIFETIME` once-timer. -/
def shootShipStep (trig : TrigOracle) (dt : ℚ) (s : ShipE) :
    ShipE × Option BulletSpawn :=
  let t := s.shoot_timer.tick dt
  if s.shoot_requested then
    if t.finished then
      ({ s with shoot_timer := Timer.reset (Timer.from_seconds PLAYER_SHOOT_DELAY) },
       some { translation := s.translation,
              velocity := ⟨s.velocity.x + BULLET_SPEED * trig.cos s.angle,
                           s.velocity.y + BULLET_SPEED * trig.sin s.angle⟩,
              limited_lifetime := Timer.from_seconds BULLET_LIFETIME })
    else ({ s with shoot_timer := t }, none)
  else ({ s with shoot_timer := t }, none)

/-- Assign fresh ids (from `n`) to the deferred bullet spawns, in order. -/
def assignIds (n : Nat) : List BulletSpawn → List BulletE
  | [] => []
  | b :: rest =>
    { id := n, translation := b.translation, velocity := b.velocity,
      limited_lifetime := b.limited_lifetime } :: assignIds (n + 1) rest

/-- The `shoot` system: run the loop body over the ships; the deferred
`Commands::spawn`s append the new bullets when the system finishes. -/
def shootW (trig : TrigOracle) (dt : ℚ) (w : World) : World :=
  let stepped := w.ships.map (shootShipStep trig dt)
  let spawns := stepped.filterMap Prod.snd
  { w with
    ships := stepped.map Prod.fst,
    bullets := w.bullets ++ assignIds w.nextId spawns,
    nextId := w.nextId + spawns.length }

/-! ### `move_objects` (src/main.rs lines 331-349) -/

/-- `transform.translation += velocity.0.extend(0.0) * time.delta_seconds()`. -/
def advanceTranslation (dt : ℚ) (t : Vec3) (v : Vec2) : Vec3 :=
  ⟨t.x + v.x * dt, t.y + v.y * dt, t.z + 0 * dt⟩

/-- The wrap step of `move_objects`: on each axis independently, if the
coordinate left `[-half, half]`, multiply it by `-1`. -/
def wrapTranslation (half_width half_height : ℚ) (p : Vec3) : Vec3 :=
  let p :=
    if p.x < -half_width ∨ p.x > half_width then { p with x := p.x * (-1) } else p
  let p :=
    if p.y < -half_height ∨ p.y > half_height then { p with y := p.y * (-1) } else p
  p

/-- Per-entity body of the `move_objects` loop.  The query takes `&Velocity`
immutably, so the velocity is returned unchanged. -/
def moveEntity (half_width half_height dt : ℚ) (t : Vec3) (v : Vec2) :
    Vec3 × Vec2 :=
  (wrapTranslation half_width half_height (advanceTranslation dt t v), v)

/-- The `move_objects` system: every entity with `Transform` and `Velocity`
(ships, bullets, asteroids) is advanced and wrapped. -/
def move_objectsW (dt half_width half_height : ℚ) (w : World) : World :=
  { w with
    ships := w.ships.map (fun s =>
      { s with translation := (moveEntity half_width half_height dt s.translation s.velocity).1 }),
    bullets := w.bullets.map (fun b =>
      { b with translation := (moveEntity half_width half_height dt b.translation b.velocity).1 }),
    asteroids := w.asteroids.map (fun a =>
      { a with translation := (moveEntity half_width half_height dt a.translation a.velocity).1 }) }

/-! ### `despawn_timed_out_entities` (src/main.rs lines 285-296) -/

/-- The `despawn_timed_out_entities` system: tick every `LimitedLifetime`
timer (only bullets carry one) and despawn the entities whose timer has
finished; the despawn commands are deferred, so every timer is ticked
before the removals are applied. -/
def despawn_timed_outW (dt : ℚ) (w : World) : World :=
  let ticked := w.bullets.map (fun b =>
    { b with limited_lifetime := b.limited_lifetime.tick dt })
  { w with bullets := ticked.filter (fun b => !b.limited_lifetime.finished) }

/-- The fate of one tracked entity across ticks: tick its lifetime timer by
each `dt` in turn and return the index (0-based, into the tick list) of the
first tick on which the timer finishes — the tick whose deferred despawn
removes the entity — or `none` if it survives the whole list. -/
def despawnRunIndex : Timer → List ℚ → Option Nat
  | _, [] => none
  | t, dt :: rest =>
    let t2 := t.tick dt
    if t2.finished then some 0
    else (despawnRunIndex t2 rest).map (fun n => n + 1)

/-! ### `check_collisions` (src/main.rs lines 351-385) -/

/-- Accumulator of the collision scan: the deferred despawn commands issued
so far and the current `Game` score (score writes go through `&mut Game`
and are visible immediately; despawns are applied only after the scan). -/
structure CollisionState where
  despawns : List Nat
  score : Int
deriving DecidableEq

/-- Body of the bullet inner loop: one asteroid-bullet pair.  On overlap
(`distance < asteroid.radius + BULLET_RADIUS`) despawn both (deferred) and
increment the score. -/
def resolveBulletPair (a : AsteroidE) (b : BulletE) (st : CollisionState) :
    CollisionState :=
  if dist_lt a.translation b.translation (a.radius + BULLET_RADIUS) then
    { despawns := st.despawns ++ [a.id, b.id], score := st.score + 1 }
  else st

/-- Body of the ship inner loop: one asteroid-ship pair.  On overlap
(`distance < asteroid.radius + PLAYER_SIZE`) despawn both (deferred) and
decrement the score. -/
def resolveShipPair (a : AsteroidE) (s : ShipE) (st : CollisionState) :
    CollisionState :=
  if dist_lt a.translation s.translation (a.radius + PLAYER_SIZE) then
    { despawns := st.despawns ++ [a.id, s.id], score := st.score - 1 }
  else st

/-- Body of the outer asteroid loop: scan this asteroid against every
bullet, then against every ship. -/
def resolveAsteroid (bullets : List BulletE) (ships : List ShipE)
    (a : AsteroidE) (st : CollisionState) : CollisionState :=
  ships.foldl (fun st s => resolveShipPair a s st)
    (bullets.foldl (fun st b => resolveBulletPair a b st) st)

/-- The full collision scan of `check_collisions`, starting from the current
score and no pending despawns. -/
def check_collisions (asteroids : List AsteroidE) (bullets : List BulletE)
    (ships : List ShipE) (score : Int) : CollisionState :=
  asteroids.foldl (fun st a => resolveAsteroid bullets ships a st)
    { despawns := [], score := score }

/-- The `check_collisions` system including the deferred command flush:
after the scan, every entity whose id was despawned is removed from its
store, and the score takes the scanned value. -/
def check_collisionsW (w : World) : World :=
  let st := check_collisions w.asteroids w.bullets w.ships w.score
  { w with
    asteroids := w.asteroids.filter (fun a => !(st.despawns.contains a.id)),
    bullets := w.bullets.filter (fun b => !(st.despawns.contains b.id)),
    ships := w.ships.filter (fun s => !(st.despawns.contains s.id)),
    score := st.score }

/-! ### Plugin registration (src/main.rs lines 417-436) -/

/-- The per-frame systems registered by `AsteroidsPlugin::build`. -/
inductive SystemId where
  | handle_input
  | update_fps_text
  | update_score_text
  | quit_on_escape
  | move_objects
  | despawn_timed_out_entities
  | shoot
  | check_collisions
  | draw_bullets
  | draw_asteroids
  | draw_player
deriving DecidableEq

/-- The `add_system` calls of `AsteroidsPlugin::build`, in source order.
All go to the default update schedule. -/
def addedSystems : List SystemId :=
  [SystemId.handle_input, SystemId.update_fps_text, SystemId.update_score_text,
   SystemId.quit_on_escape, SystemId.move_objects,
   SystemId.despawn_timed_out_entities, SystemId.shoot,
   SystemId.check_collisions, SystemId.draw_bullets, SystemId.draw_asteroids,
   SystemId.draw_player]

/-- The explicit ordering constraints declared in `AsteroidsPlugin::build`:
the source uses no `before`/`after`/`chain`, so there are none. -/
def orderingConstraints : List (SystemId × SystemId) := []

/-- `a` runs before `b` in the schedule order `l`. -/
def precedesIn (l : List SystemId) (a b : SystemId) : Prop :=
  l.indexOf a < l.indexOf b

/-- A per-tick execution order the bevy scheduler may choose: some
arrangement of the registered systems respecting every declared ordering
constraint. -/
def validTickOrder (l : List SystemId) : Prop :=
  l.Perm addedSystems ∧ ∀ p ∈ orderingConstraints, precedesIn l p.1 p.2

/-- Per-tick environment read by the systems: elapsed time, keyboard state,
viewport half-extents, and the trigonometry embedding parameters. -/
structure TickEnv where
  dt : ℚ
  input : InputState
  half_width : ℚ
  half_height : ℚ
  trig : TrigOracle
  turnSpeed : ℚ

/-- Dispatch one registered system on the world.  `update_fps_text`,
`update_score_text`, `quit_on_escape` and the three draw systems only read
the simulation state (they write UI text, painter commands or the exit
event), so on the embedded world they act as the identity. -/
def applySystem (sys : SystemId) (env : TickEnv) (w : World) : World :=
  match sys with
  | SystemId.handle_input => handle_inputW env.input env.turnSpeed env.trig w
  | SystemId.shoot => shootW env.trig env.dt w
  | SystemId.move_objects => move_objectsW env.dt env.half_width env.half_height w
  | SystemId.despawn_timed_out_entities => despawn_timed_outW env.dt w
  | SystemId.check_collisions => check_collisionsW w
  | _ => w

/-! ### `setup` (src/main.rs lines 105-159) -/

/-- The player spawn position of `setup`. -/
def player_position : Vec3 := ⟨0, 0, 0⟩

/-- The ship entity spawned by `setup`: position at the origin, initial
velocity `(5, 10)`, and `Ship::default()` — in particular a default
(zero-duration) shoot timer.  The id stands in for the handle bevy assigns. -/
def initialShip : ShipE :=
  { id := 0, translation := player_position, velocity := ⟨5, 10⟩,
    angle := 0, thrusting := false, shoot_requested := false,
    shoot_timer := Timer.timerDefault }

/-- Acceptance test of the asteroid spawn loop in `setup`:
`pos.distance(player_position) - ASTEROID_RADIUS > PLAYER_CLEAR_RADIUS`,
i.e. the distance to the player spawn exceeds
`PLAYER_CLEAR_RADIUS + ASTEROID_RADIUS`. -/
def spawnCandidateOk (pos : Vec3) : Bool :=
  dist_gt pos player_position (PLAYER_CLEAR_RADIUS + ASTEROID_RADIUS)

/-- The retry loop of `setup`, over the stream of random candidate positions
it draws: return the first accepted candidate. -/
def asteroid_spawn_loop : List Vec3 → Option Vec3
  | [] => none
  | pos :: rest =>
    if spawnCandidateOk pos then some pos else asteroid_spawn_loop rest

/-- The `shoot` system iterated tick by tick on one ship under continuous
fire intent (the input phase holds the fire key down every tick): the
per-tick record of whether a bullet spawned. -/
def shipShootRun (trig : TrigOracle) : ShipE → List ℚ → List Bool
  | _, [] => []
  | s, dt :: rest =>
    let r := shootShipStep trig dt { s with shoot_requested := true }
    r.2.isSome :: shipShootRun trig r.1 rest

instance (l : List SystemId) (a b : SystemId) : Decidable (precedesIn l a b) := by
  unfold precedesIn
  infer_instance

/-! ### Concrete game states used by witnesses and counterexamples -/

/-- A concrete trigonometry oracle (facing along the positive x axis). -/
def trigSample : TrigOracle := { cos := fun _ => 1, sin := fun _ => 0 }

/-- A concrete tick environment. -/
def envSample : TickEnv :=
  { dt := 1, input := ⟨false, false, false, false, false⟩, half_width := 100,
    half_height := 100, trig := trigSample, turnSpeed := 0 }

/-- The spec's shot-hits-rock scenario: asteroid at the origin, radius 20. -/
def astHit : AsteroidE :=
  { id := 0, translation := ⟨0, 0, 0⟩, velocity := ⟨0, 0⟩, radius := 20 }

/-- Bullet at `(5, 0)`: distance 5 from `astHit`, well inside radius 21. -/
def bulHit : BulletE :=
  { id := 1, translation := ⟨5, 0, 0⟩, velocity := ⟨0, 0⟩,
    limited_lifetime := Timer.from_seconds BULLET_LIFETIME }

/-- A second bullet overlapping `astHit` (at the asteroid's center). -/
def bulHit2 : BulletE :=
  { id := 2, translation := ⟨0, 0, 0⟩, velocity := ⟨0, 0⟩,
    limited_lifetime := Timer.from_seconds BULLET_LIFETIME }

/-- World containing just `astHit` and `bulHit`. -/
def worldBulletHit : World :=
  { ships := [], bullets := [bulHit], asteroids := [astHit], score := 0,
    nextId := 3 }

/-- The spec's ship-destroyed scenario: ship at the origin. -/
def shipHit : ShipE :=
  { id := 5, translation := ⟨0, 0, 0⟩, velocity := ⟨0, 0⟩, angle := 0,
    thrusting := false, shoot_requested := false,
    shoot_timer := Timer.timerDefault }

/-- Asteroid at `(15, 0)`, radius 20: distance 15 from `shipHit`, inside
`radius + PLAYER_SIZE = 30`. -/
def astShipHit : AsteroidE :=
  { id := 9, translation := ⟨15, 0, 0⟩, velocity := ⟨0, 0⟩, radius := 20 }

/-- World containing just `shipHit` and `astShipHit`. -/
def worldShipHit : World :=
  { ships := [shipHit], bullets := [], asteroids := [astShipHit], score := 0,
    nextId := 10 }

/-- A ship holding fire whose cooldown timer has a full `PLAYER_SHOOT_DELAY`
still to run. -/
def shipReady : ShipE :=
  { id := 0, translation := ⟨0, 0, 0⟩, velocity := ⟨0, 0⟩, angle := 0,
    thrusting := false, shoot_requested := true,
    shoot_timer := Timer.from_seconds PLAYER_SHOOT_DELAY }

/-- The freshly spawned ship, holding fire on the very first tick. -/
def shipFresh : ShipE := { initialShip with shoot_requested := true }

/-- The bullet payload `shipReady` spawns under `trigSample`. -/
def bulletSampleSpawn : BulletSpawn :=
  { translation := ⟨0, 0, 0⟩, velocity := ⟨300, 0⟩,
    limited_lifetime := Timer.from_seconds BULLET_LIFETIME }

/-! ### Helper lemmas: the collision scan accumulator -/

lemma despawns_subset_resolveBulletPair (a : AsteroidE) (b : BulletE)
    (st : CollisionState) {x : Nat} (h : x ∈ st.despawns) :
    x ∈ (resolveBulletPair a b st).despawns := by
  unfold resolveBulletPair
  split
  · simpa using Or.inl h
  · exact h

lemma despawns_subset_resolveShipPair (a : AsteroidE) (s : ShipE)
    (st : CollisionState) {x : Nat} (h : x ∈ st.despawns) :
    x ∈ (resolveShipPair a s st).despawns := by
  unfold resolveShipPair
  split
  · simpa using Or.inl h
  · exact h

lemma despawns_subset_foldl_bullets (a : AsteroidE) (bullets : List BulletE) :
    ∀ (st : CollisionState) {x : Nat}, x ∈ st.despawns →
      x ∈ (bullets.foldl (fun st b => resolveBulletPair a b st) st).despawns := by
  induction bullets with
  | nil => intro st x h; exact h
  | cons b rest ih =>
    intro st x h
    simp only [List.foldl_cons]
    exact ih _ (despawns_subset_resolveBulletPair a b st h)

lemma despawns_subset_foldl_ships (a : AsteroidE) (ships : List ShipE) :
    ∀ (st : CollisionState) {x : Nat}, x ∈ st.despawns →
      x ∈ (ships.foldl (fun st s => resolveShipPair a s st) st).despawns := by
  induction ships with
  | nil => intro st x h; exact h
  | cons s rest ih =>
    intro st x h
    simp only [List.foldl_cons]
    exact ih _ (despawns_subset_resolveShipPair a s st h)

lemma despawns_subset_resolveAsteroid (bullets : List BulletE)
    (ships : List ShipE) (a : AsteroidE) (st : CollisionState) {x : Nat}
    (h : x ∈ st.despawns) : x ∈ (resolveAsteroid bullets ships a st).despawns := by
  unfold resolveAsteroid
  exact despawns_subset_foldl_ships a ships _ (despawns_subset_foldl_bullets a bullets st h)

lemma despawns_subset_foldl_asteroids (bullets : List BulletE)
    (ships : List ShipE) (asteroids : List AsteroidE) :
    ∀ (st : CollisionState) {x : Nat}, x ∈ st.despawns →
      x ∈ (asteroids.foldl (fun st a => resolveAsteroid bullets ships a st) st).despawns := by
  induction asteroids with
  | nil => intro st x h; exact h
  | cons a rest ih =>
    intro st x h
    simp only [List.foldl_cons]
    exact ih _ (despawns_subset_resolveAsteroid bullets ships a st h)

lemma hit_mem_resolveBulletPair {a : AsteroidE} {b : BulletE}
    (hc : dist_lt a.translation b.translation (a.radius + BULLET_RADIUS) = true)
    (st : CollisionState) :
    a.id ∈ (resolveBulletPair a b st).despawns
      ∧ b.id ∈ (resolveBulletPair a b st).despawns := by
  unfold resolveBulletPair
  rw [if_pos hc]
  constructor <;> simp

lemma hit_mem_resolveShipPair {a : AsteroidE} {s : ShipE}
    (hc : dist_lt a.translation s.translation (a.radius + PLAYER_SIZE) = true)
    (st : CollisionState) :
    a.id ∈ (resolveShipPair a s st).despawns
      ∧ s.id ∈ (resolveShipPair a s st).despawns := by
  unfold resolveShipPair
  rw [if_pos hc]
  constructor <;> simp

lemma hit_mem_foldl_bullets {a : AsteroidE} {b : BulletE}
    {bullets : List BulletE} (hb : b ∈ bullets)
    (hc : dist_lt a.translation b.translation (a.radius + BULLET_RADIUS) = true) :
    ∀ st, a.id ∈ (bullets.foldl (fun st b => resolveBulletPair a b st) st).despawns
      ∧ b.id ∈ (bullets.foldl (fun st b => resolveBulletPair a b st) st).despawns := by
  induction bullets with
  | nil => cases hb
  | cons b0 rest ih =>
    intro st
    simp only [List.foldl_cons]
    rcases List.mem_cons.mp hb with h0 | hb'
    · subst h0
      have h2 := hit_mem_resolveBulletPair hc st
      exact ⟨despawns_subset_foldl_bullets a rest _ h2.1,
             despawns_subset_foldl_bullets a rest _ h2.2⟩
    · exact ih hb' _

lemma hit_mem_foldl_ships {a : AsteroidE} {s : ShipE}
    {ships : List ShipE} (hs : s ∈ ships)
    (hc : dist_lt a.translation s.translation (a.radius + PLAYER_SIZE) = true) :
    ∀ st, a.id ∈ (ships.foldl (fun st s => resolveShipPair a s st) st).despawns
      ∧ s.id ∈ (ships.foldl (fun st s => resolveShipPair a s st) st).despawns := by
  induction ships with
  | nil => cases hs
  | cons s0 rest ih =>
    intro st
    simp only [List.foldl_cons]
    rcases List.mem_cons.mp hs with h0 | hs'
    · subst h0
      have h2 := hit_mem_resolveShipPair hc st
      exact ⟨despawns_subset_foldl_ships a rest _ h2.1,
             despawns_subset_foldl_ships a rest _ h2.2⟩
    · exact ih hs' _

lemma hit_mem_resolveAsteroid_bullet {a : AsteroidE} {b : BulletE}
    {bullets : List BulletE} (ships : List ShipE) (hb : b ∈ bullets)
    (hc : dist_lt a.translation b.translation (a.radius + BULLET_RADIUS) = true)
    (st : CollisionState) :
    a.id ∈ (resolveAsteroid bullets ships a st).despawns
      ∧ b.id ∈ (resolveAsteroid bullets ships a st).despawns := by
  unfold resolveAsteroid
  have h2 := hit_mem_foldl_bullets hb hc st
  exact ⟨despawns_subset_foldl_ships a ships _ h2.1,
         despawns_subset_foldl_ships a ships _ h2.2⟩

lemma hit_mem_resolveAsteroid_ship {a : AsteroidE} {s : ShipE}
    (bullets : List BulletE) {ships : List ShipE} (hs : s ∈ ships)
    (hc : dist_lt a.translation s.translation (a.radius + PLAYER_SIZE) = true)
    (st : CollisionState) :
    a.id ∈ (resolveAsteroid bullets ships a st).despawns
      ∧ s.id ∈ (resolveAsteroid bullets ships a st).despawns := by
  unfold resolveAsteroid
  exact hit_mem_foldl_ships hs hc _

lemma hit_mem_foldl_asteroids_bullet {a : AsteroidE} {b : BulletE}
    {asteroids : List AsteroidE} {bullets : List BulletE} (ships : List ShipE)
    (ha : a ∈ asteroids) (hb : b ∈ bullets)
    (hc : dist_lt a.translation b.translation (a.radius + BULLET_RADIUS) = true) :
    ∀ st, a.id ∈ ((asteroids.foldl (fun st a => resolveAsteroid bullets ships a st) st)).despawns
      ∧ b.id ∈ ((asteroids.foldl (fun st a => resolveAsteroid bullets ships a st) st)).despawns := by
  induction asteroids with
  | nil => cases ha
  | cons a0 rest ih =>
    intro st
    simp only [List.foldl_cons]
    rcases List.mem_cons.mp ha with h0 | ha'
    · subst h0
      have h2 := hit_mem_resolveAsteroid_bullet ships hb hc st
      exact ⟨despawns_subset_foldl_asteroids bullets ships rest _ h2.1,
             despawns_subset_foldl_asteroids bullets ships rest _ h2.2⟩
    · exact ih ha' _

lemma hit_mem_foldl_asteroids_ship {a : AsteroidE} {s : ShipE}
    {asteroids : List AsteroidE} (bullets : List BulletE) {ships : List ShipE}
    (ha : a ∈ asteroids) (hs : s ∈ ships)
    (hc : dist_lt a.translation s.translation (a.radius + PLAYER_SIZE) = true) :
    ∀ st, a.id ∈ ((asteroids.foldl (fun st a => resolveAsteroid bullets ships a st) st)).despawns
      ∧ s.id ∈ ((asteroids.foldl (fun st a => resolveAsteroid bullets ships a st) st)).despawns := by
  induction asteroids with
  | nil => cases ha
  | cons a0 rest ih =>
    intro st
    simp only [List.foldl_cons]
    rcases List.mem_cons.mp ha with h0 | ha'
    · subst h0
      have h2 := hit_mem_resolveAsteroid_ship bullets hs hc st
      exact ⟨despawns_subset_foldl_asteroids bullets ships rest _ h2.1,
             despawns_subset_foldl_asteroids bullets ships rest _ h2.2⟩
    · exact ih ha' _

lemma hit_mem_check_collisions_bullet {w : World} {a : AsteroidE} {b : BulletE}
    (ha : a ∈ w.asteroids) (hb : b ∈ w.bullets)
    (hc : dist_lt a.translation b.translation (a.radius + BULLET_RADIUS) = true) :
    a.id ∈ (check_collisions w.asteroids w.bullets w.ships w.score).despawns
      ∧ b.id ∈ (check_collisions w.asteroids w.bullets w.ships w.score).despawns := by
  unfold check_collisions
  exact hit_mem_foldl_asteroids_bullet w.ships ha hb hc _

lemma hit_mem_check_collisions_ship {w : World} {a : AsteroidE} {s : ShipE}
    (ha : a ∈ w.asteroids) (hs : s ∈ w.ships)
    (hc : dist_lt a.translation s.translation (a.radius + PLAYER_SIZE) = true) :
    a.id ∈ (check_collisions w.asteroids w.bullets w.ships w.score).despawns
      ∧ s.id ∈ (check_collisions w.asteroids w.bullets w.ships w.score).despawns := by
  unfold check_collisions
  exact hit_mem_foldl_asteroids_ship w.bullets ha hs hc _

lemma not_mem_filter_of_despawned {α : Type} (idf : α → Nat) (l : List α)
    (ds : List Nat) (x : α) (hx : idf x ∈ ds) :
    x ∉ l.filter (fun y => !(ds.contains (idf y))) := by
  intro hmem
  have h2 := (List.mem_filter.mp hmem).2
  rw [Bool.not_eq_true'] at h2
  have h3 : ds.contains (idf x) = true := List.elem_iff.mpr hx
  rw [h2] at h3
  cases h3

/-! ### Claim C1 -/

/-- C1: for every asteroid-projectile pair evaluated by the collision scan,
if the distance between their centers is below `asteroid.radius +
BULLET_RADIUS` then both ids are enqueued for despawn and the pair
contributes exactly `+1` to the score, and otherwise the pair leaves the
accumulator untouched; moreover any such colliding pair present in the
world is removed (both entities) when `check_collisions` flushes its
deferred despawns at the end of the tick's scan. -/
theorem pair_collision_spec :
    (∀ (a : AsteroidE) (b : BulletE) (st : CollisionState),
      (dist_lt a.translation b.translation (a.radius + BULLET_RADIUS) = true →
        resolveBulletPair a b st
          = { despawns := st.despawns ++ [a.id, b.id], score := st.score + 1 })
      ∧ (dist_lt a.translation b.translation (a.radius + BULLET_RADIUS) = false →
        resolveBulletPair a b st = st))
    ∧ (∀ (w : World) (a : AsteroidE) (b : BulletE),
        a ∈ w.asteroids → b ∈ w.bullets →
        dist_lt a.translation b.translation (a.radius + BULLET_RADIUS) = true →
        a ∉ (check_collisionsW w).asteroids ∧ b ∉ (check_collisionsW w).bullets) := by
  constructor
  · intro a b st
    constructor
    · intro h
      unfold resolveBulletPair
      rw [if_pos h]
    · intro h
      simp [resolveBulletPair, h]
  · intro w a b ha hb hc
    have h2 := hit_mem_check_collisions_bullet ha hb hc
    simp only [check_collisionsW]
    exact ⟨not_mem_filter_of_despawned AsteroidE.id w.asteroids _ a h2.1,
           not_mem_filter_of_despawned BulletE.id w.bullets _ b h2.2⟩

/-- Witness for C1 at the spec's shot-hits-rock scenario: asteroid at the
origin with radius 20, bullet at `(5, 0)` — the pair scores `+1`, and after
the flush both entities are gone from the world. -/
theorem pair_collision_spec_witness :
    (resolveBulletPair astHit bulHit { despawns := [], score := 0 }
        = { despawns := [] ++ [astHit.id, bulHit.id], score := 0 + 1 })
    ∧ astHit ∉ (check_collisionsW worldBulletHit).asteroids
    ∧ bulHit ∉ (check_collisionsW worldBulletHit).bullets := by
  have h1 := (pair_collision_spec.1 astHit bulHit { despawns := [], score := 0 }).1
    (by with_unfolding_all decide)
  have h2 := pair_collision_spec.2 worldBulletHit astHit bulHit
    (by simp [worldBulletHit]) (by simp [worldBulletHit])
    (by with_unfolding_all decide)
  exact ⟨h1, h2.1, h2.2⟩

/-! ### Claim C2 -/

/-- Counterexample to C2: despawns are deferred `Commands`, so an asteroid
is NOT removed eagerly within the scan — here one asteroid overlaps two
bullets in the same tick and the score rises by 2, not by at most 1 per
asteroid per tick as the claim states. -/
theorem asteroid_double_count_example :
    (check_collisions [astHit] [bulHit2, bulHit] [] 0).score = 2
    ∧ ¬ ((check_collisions [astHit] [bulHit2, bulHit] [] 0).score ≤ 0 + 1) := by
  constructor <;> with_unfolding_all decide

/-- C2 amended: despawn commands are deferred to the end of the
`check_collisions` system, so within one tick's scan an asteroid is still
compared against every projectile; the score increases by exactly the
number of projectiles overlapping that asteroid (one per colliding pair),
not by at most one per asteroid per tick. -/
theorem bullet_scan_score_counts :
    ∀ (a : AsteroidE) (bullets : List BulletE) (st : CollisionState),
      (bullets.foldl (fun st b => resolveBulletPair a b st) st).score
        = st.score
          + ((bullets.filter (fun b =>
              dist_lt a.translation b.translation (a.radius + BULLET_RADIUS))).length : Int) := by
  intro a bullets
  induction bullets with
  | nil => intro st; simp
  | cons b rest ih =>
    intro st
    simp only [List.foldl_cons, List.filter_cons]
    cases hb : dist_lt a.translation b.translation (a.radius + BULLET_RADIUS) with
    | true =>
      rw [ih]
      simp only [resolveBulletPair, hb, if_true, List.length_cons]
      push_cast
      ring
    | false =>
      rw [ih]
      simp [resolveBulletPair, hb]

/-! ### Claim C3 -/

lemma wrapTranslation_eq (hw hh : ℚ) (p : Vec3) :
    wrapTranslation hw hh p
      = ⟨if p.x < -hw ∨ p.x > hw then p.x * (-1) else p.x,
         if p.y < -hh ∨ p.y > hh then p.y * (-1) else p.y,
         p.z⟩ := by
  unfold wrapTranslation
  by_cases cx : p.x < -hw ∨ p.x > hw <;> by_cases cy : p.y < -hh ∨ p.y > hh <;>
    simp [cx, cy]

/-- C3: `move_objects` advances each translation by `velocity * dt` and then
wraps: whenever `|x|` exceeds the half-width the sign of `x` is flipped with
its magnitude preserved (likewise `y` against the half-height, and `z` is
untouched), and the wrap changes nothing when the coordinate is in range;
the entity's velocity is returned unchanged by the whole step. -/
theorem move_objects_wrap_spec :
    ∀ (hw hh dt : ℚ) (t : Vec3) (v : Vec2),
      (moveEntity hw hh dt t v).2 = v
      ∧ advanceTranslation dt t v = ⟨t.x + v.x * dt, t.y + v.y * dt, t.z⟩
      ∧ (moveEntity hw hh dt t v).1
          = wrapTranslation hw hh (advanceTranslation dt t v)
      ∧ ∀ p : Vec3,
          (hw < |p.x| → (wrapTranslation hw hh p).x = -p.x)
          ∧ (|p.x| ≤ hw → (wrapTranslation hw hh p).x = p.x)
          ∧ (hh < |p.y| → (wrapTranslation hw hh p).y = -p.y)
          ∧ (|p.y| ≤ hh → (wrapTranslation hw hh p).y = p.y)
          ∧ |(wrapTranslation hw hh p).x| = |p.x|
          ∧ |(wrapTranslation hw hh p).y| = |p.y|
          ∧ (wrapTranslation hw hh p).z = p.z := by
  intro hw hh dt t v
  refine ⟨rfl, by simp [advanceTranslation], rfl, ?_⟩
  intro p
  have hx : hw < |p.x| ↔ (p.x < -hw ∨ p.x > hw) := by
    rw [lt_abs]
    constructor
    · rintro (h | h)
      · exact Or.inr h
      · exact Or.inl (by linarith)
    · rintro (h | h)
      · exact Or.inr (by linarith)
      · exact Or.inl h
  have hy : hh < |p.y| ↔ (p.y < -hh ∨ p.y > hh) := by
    rw [lt_abs]
    constructor
    · rintro (h | h)
      · exact Or.inr h
      · exact Or.inl (by linarith)
    · rintro (h | h)
      · exact Or.inr (by linarith)
      · exact Or.inl h
  rw [wrapTranslation_eq]
  refine ⟨?_, ?_, ?_, ?_, ?_, ?_, rfl⟩
  · intro h
    show (if p.x < -hw ∨ p.x > hw then p.x * (-1) else p.x) = -p.x
    rw [if_pos (hx.mp h)]
    ring
  · intro h
    show (if p.x < -hw ∨ p.x > hw then p.x * (-1) else p.x) = p.x
    rw [if_neg (fun c => absurd (hx.mpr c) (not_lt.mpr h))]
  · intro h
    show (if p.y < -hh ∨ p.y > hh then p.y * (-1) else p.y) = -p.y
    rw [if_pos (hy.mp h)]
    ring
  · intro h
    show (if p.y < -hh ∨ p.y > hh then p.y * (-1) else p.y) = p.y
    rw [if_neg (fun c => absurd (hy.mpr c) (not_lt.mpr h))]
  · show |if p.x < -hw ∨ p.x > hw then p.x * (-1) else p.x| = |p.x|
    by_cases c : p.x < -hw ∨ p.x > hw
    · rw [if_pos c, mul_neg_one, abs_neg]
    · rw [if_neg c]
  · show |if p.y < -hh ∨ p.y > hh then p.y * (-1) else p.y| = |p.y|
    by_cases c : p.y < -hh ∨ p.y > hh
    · rw [if_pos c, mul_neg_one, abs_neg]
    · rw [if_neg c]

/-- Witness for C3: an entity advanced from `(9,0)` with velocity `(2,0)`
for one second crosses the half-width 10 and its `x` is reflected; a point
at `(15,3)` has `x` flipped (magnitude kept) and `y` untouched; velocity is
returned unchanged. -/
theorem move_objects_wrap_spec_witness :
    (moveEntity 10 10 1 ⟨9, 0, 0⟩ ⟨2, 0⟩).2 = ⟨2, 0⟩
    ∧ (wrapTranslation 10 10 ⟨15, 3, 0⟩).x = -(⟨15, 3, 0⟩ : Vec3).x
    ∧ (wrapTranslation 10 10 ⟨15, 3, 0⟩).y = (⟨15, 3, 0⟩ : Vec3).y
    ∧ |(wrapTranslation 10 10 ⟨15, 3, 0⟩).x| = |(⟨15, 3, 0⟩ : Vec3).x| := by
  have h := move_objects_wrap_spec 10 10 1 ⟨9, 0, 0⟩ ⟨2, 0⟩
  have hp := h.2.2.2 ⟨15, 3, 0⟩
  exact ⟨h.1, hp.1 (by with_unfolding_all decide),
         hp.2.2.2.1 (by with_unfolding_all decide), hp.2.2.2.2.1⟩

/-! ### Claim C4 -/

/-- C4: the ship's cooldown remaining time never goes negative (the timer
clamps at its duration), a bullet spawns exactly when fire intent is held
and the ticked cooldown timer has finished, and immediately after a
successful shot the cooldown timer is the freshly reset
`PLAYER_SHOOT_DELAY` timer, with remaining time exactly
`PLAYER_SHOOT_DELAY`. -/
theorem shoot_cooldown_spec :
    ∀ (trig : TrigOracle) (dt : ℚ) (s : ShipE), 0 ≤ dt → wfTimer s.shoot_timer →
      (wfTimer (shootShipStep trig dt s).1.shoot_timer
        ∧ 0 ≤ (shootShipStep trig dt s).1.shoot_timer.remaining)
      ∧ ((shootShipStep trig dt s).2.isSome = true ↔
          (s.shoot_requested = true ∧ (s.shoot_timer.tick dt).finished = true))
      ∧ ((shootShipStep trig dt s).2.isSome = true →
          (shootShipStep trig dt s).1.shoot_timer
            = Timer.reset (Timer.from_seconds PLAYER_SHOOT_DELAY)
          ∧ (shootShipStep trig dt s).1.shoot_timer.remaining = PLAYER_SHOOT_DELAY) := by
  intro trig dt s hd hw
  cases hreq : s.shoot_requested with
  | false =>
    have hstep : shootShipStep trig dt s
        = ({ s with shoot_timer := s.shoot_timer.tick dt }, none) := by
      unfold shootShipStep
      simp [hreq]
    rw [hstep]
    refine ⟨⟨wfTimer_tick hd hw, sub_nonneg.mpr (wfTimer_tick hd hw).2⟩, ?_, ?_⟩
    · simp [hreq]
    · simp
  | true =>
    cases hfin : (s.shoot_timer.tick dt).finished with
    | false =>
      have hstep : shootShipStep trig dt s
          = ({ s with shoot_timer := s.shoot_timer.tick dt }, none) := by
        unfold shootShipStep
        simp [hreq, hfin]
      rw [hstep]
      refine ⟨⟨wfTimer_tick hd hw, sub_nonneg.mpr (wfTimer_tick hd hw).2⟩, ?_, ?_⟩
      · simp [hfin]
      · simp
    | true =>
      have hstep : shootShipStep trig dt s
          = ({ s with shoot_timer := Timer.reset (Timer.from_seconds PLAYER_SHOOT_DELAY) },
             some { translation := s.translation,
                    velocity := ⟨s.velocity.x + BULLET_SPEED * trig.cos s.angle,
                                 s.velocity.y + BULLET_SPEED * trig.sin s.angle⟩,
                    limited_lifetime := Timer.from_seconds BULLET_LIFETIME }) := by
        unfold shootShipStep
        simp [hreq, hfin]
      rw [hstep]
      refine ⟨⟨?_, ?_⟩, ?_, fun _ => ⟨rfl, ?_⟩⟩
      · constructor <;>
          norm_num [Timer.reset, Timer.from_seconds, PLAYER_SHOOT_DELAY]
      · norm_num [Timer.reset, Timer.from_seconds, Timer.remaining,
          PLAYER_SHOOT_DELAY]
      · simp [hfin]
      · norm_num [Timer.reset, Timer.from_seconds, Timer.remaining,
          PLAYER_SHOOT_DELAY]

/-- Witness for C4: a ship holding fire whose half-second cooldown elapses
during a one-second tick spawns a bullet, and its cooldown is reset to
exactly `PLAYER_SHOOT_DELAY`, which is nonnegative. -/
theorem shoot_cooldown_spec_witness :
    (shootShipStep trigSample 1 shipReady).2.isSome = true
    ∧ (shootShipStep trigSample 1 shipReady).1.shoot_timer.remaining
        = PLAYER_SHOOT_DELAY
    ∧ 0 ≤ (shootShipStep trigSample 1 shipReady).1.shoot_timer.remaining := by
  have h := shoot_cooldown_spec trigSample 1 shipReady (by norm_num)
    (by unfold wfTimer; with_unfolding_all decide)
  have hs : (shootShipStep trigSample 1 shipReady).2.isSome = true :=
    h.2.1.mpr ⟨rfl, by with_unfolding_all decide⟩
  exact ⟨hs, (h.2.2 hs).2, h.1.2⟩

/-! ### Claim C5 -/

lemma despawnRunIndex_spec :
    ∀ (dts : List ℚ) (t : Timer), t.finished = false → ∀ j : Nat,
      (despawnRunIndex t dts = some j ↔
        (j < dts.length ∧ t.duration ≤ t.elapsed + (dts.take (j+1)).sum
          ∧ ∀ i, i < j → t.elapsed + (dts.take (i+1)).sum < t.duration)) := by
  intro dts
  induction dts with
  | nil =>
    intro t hf j
    simp [despawnRunIndex]
  | cons dt rest ih =>
    intro t hf j
    have htick : t.tick dt
        = if t.duration ≤ t.elapsed + dt
          then { t with elapsed := t.duration, finished := true }
          else { t with elapsed := t.elapsed + dt, finished := false } := by
      unfold Timer.tick
      rw [hf]
      simp
    by_cases hd : t.duration ≤ t.elapsed + dt
    · have h2 : despawnRunIndex t (dt :: rest) = some 0 := by
        simp only [despawnRunIndex]
        rw [htick, if_pos hd]
        simp
      rw [h2]
      cases j with
      | zero =>
        simp only [List.length_cons, List.take_succ_cons, List.take_zero,
          List.sum_cons, List.sum_nil]
        constructor
        · intro _
          exact ⟨Nat.succ_pos _, by linarith, fun i hi => absurd hi (Nat.not_lt_zero i)⟩
        · intro _
          trivial
      | succ j' =>
        constructor
        · intro h3
          rw [Option.some.injEq] at h3
          omega
        · rintro ⟨-, -, h3⟩
          have h4 := h3 0 (Nat.succ_pos _)
          simp only [List.take_succ_cons, List.take_zero, List.sum_cons,
            List.sum_nil] at h4
          linarith
    · have ht2 : t.tick dt = { t with elapsed := t.elapsed + dt, finished := false } := by
        rw [htick, if_neg hd]
      have h2 : despawnRunIndex t (dt :: rest)
          = (despawnRunIndex { t with elapsed := t.elapsed + dt, finished := false } rest).map
              (fun n => n + 1) := by
        simp only [despawnRunIndex]
        rw [ht2]
        simp
      rw [h2]
      cases j with
      | zero =>
        constructor
        · intro h3
          rcases Option.map_eq_some'.mp h3 with ⟨k, -, hk⟩
          omega
        · rintro ⟨-, h3, -⟩
          simp only [List.take_succ_cons, List.take_zero, List.sum_cons,
            List.sum_nil] at h3
          exact absurd (by linarith : t.duration ≤ t.elapsed + dt) hd
      | succ j' =>
        have hmap : ((despawnRunIndex { t with elapsed := t.elapsed + dt, finished := false }
                rest).map (fun n => n + 1) = some (j' + 1))
            ↔ despawnRunIndex { t with elapsed := t.elapsed + dt, finished := false } rest
                = some j' := by
          constructor
          · intro h3
            rcases Option.map_eq_some'.mp h3 with ⟨k, hk, hk2⟩
            have hkj : k = j' := by omega
            rwa [hkj] at hk
          · intro h3
            rw [h3]
            rfl
        rw [hmap, ih _ rfl j']
        have hlt : t.elapsed + dt < t.duration := lt_of_not_le hd
        constructor
        · rintro ⟨h1, h2', h3⟩
          refine ⟨by simpa using Nat.succ_lt_succ h1, ?_, ?_⟩
          · simp only [List.take_succ_cons, List.sum_cons]
            dsimp at h2'
            linarith
          · intro i hi
            cases i with
            | zero =>
              simp only [List.take_succ_cons, List.take_zero, List.sum_cons,
                List.sum_nil]
              linarith
            | succ i' =>
              have h4 := h3 i' (by omega)
              dsimp at h4
              simp only [List.take_succ_cons, List.sum_cons]
              linarith
        · rintro ⟨h1, h2', h3⟩
          refine ⟨by simpa using Nat.lt_of_succ_lt_succ h1, ?_, ?_⟩
          · dsimp
            simp only [List.take_succ_cons, List.sum_cons] at h2'
            linarith
          · intro i hi
            have h4 := h3 (i + 1) (by omega)
            simp only [List.take_succ_cons, List.sum_cons] at h4
            dsimp
            linarith

/-- C5: every bullet is spawned carrying a fresh `BULLET_LIFETIME` (3
second) once-timer, and the lifetime tracker despawns a tracked entity at
index `j` of a tick sequence exactly when `j` is the first tick at which
the cumulative elapsed time since spawn reaches `BULLET_LIFETIME` — never
at any earlier tick. -/
theorem bullet_lifetime_spec :
    (∀ (trig : TrigOracle) (dt : ℚ) (s : ShipE) (b : BulletSpawn),
        (shootShipStep trig dt s).2 = some b →
        b.limited_lifetime = Timer.from_seconds BULLET_LIFETIME)
    ∧ (∀ (dts : List ℚ) (j : Nat),
        despawnRunIndex (Timer.from_seconds BULLET_LIFETIME) dts = some j ↔
          (j < dts.length
            ∧ BULLET_LIFETIME ≤ (dts.take (j+1)).sum
            ∧ ∀ i, i < j → (dts.take (i+1)).sum < BULLET_LIFETIME)) := by
  constructor
  · intro trig dt s b hb
    unfold shootShipStep at hb
    cases hreq : s.shoot_requested with
    | false =>
      rw [hreq] at hb
      simp at hb
    | true =>
      rw [hreq] at hb
      cases hfin : (s.shoot_timer.tick dt).finished with
      | false =>
        simp [hfin] at hb
      | true =>
        simp only [hfin, if_true, Option.some.injEq] at hb
        rw [← hb]
  · intro dts j
    have h := despawnRunIndex_spec dts (Timer.from_seconds BULLET_LIFETIME) rfl j
    simpa [Timer.from_seconds] using h

/-- Witness for C5: the bullet spawned by `shipReady` carries a fresh
3-second lifetime timer, and under ticks of 1, 1, 1/2, 1 seconds the
despawn happens at tick index 3, the first tick at which cumulative
elapsed time (3.5) reaches 3. -/
theorem bullet_lifetime_spec_witness :
    bulletSampleSpawn.limited_lifetime = Timer.from_seconds BULLET_LIFETIME
    ∧ despawnRunIndex (Timer.from_seconds BULLET_LIFETIME) [1, 1, 1/2, 1]
        = some 3 := by
  refine ⟨bullet_lifetime_spec.1 trigSample 1 shipReady bulletSampleSpawn
    (by with_unfolding_all decide), ?_⟩
  refine (bullet_lifetime_spec.2 [1, 1, 1/2, 1] 3).mpr ⟨?_, ?_, ?_⟩
  · decide
  · with_unfolding_all decide
  · intro i hi
    interval_cases i <;> with_unfolding_all decide

/-! ### Claim C6 -/

/-- C6: an asteroid-ship pair within `asteroid.radius + PLAYER_SIZE` has
both ids enqueued for despawn and contributes exactly `-1` to the score
(and a non-colliding pair changes nothing); any such colliding pair present
in the world loses both entities at the flush; and no registered system
ever creates a ship, so once the world has zero ships it has zero ships
after every subsequent system application — there is no respawn. -/
theorem ship_collision_spec :
    (∀ (a : AsteroidE) (s : ShipE) (st : CollisionState),
      (dist_lt a.translation s.translation (a.radius + PLAYER_SIZE) = true →
        resolveShipPair a s st
          = { despawns := st.despawns ++ [a.id, s.id], score := st.score - 1 })
      ∧ (dist_lt a.translation s.translation (a.radius + PLAYER_SIZE) = false →
        resolveShipPair a s st = st))
    ∧ (∀ (w : World) (a : AsteroidE) (s : ShipE),
        a ∈ w.asteroids → s ∈ w.ships →
        dist_lt a.translation s.translation (a.radius + PLAYER_SIZE) = true →
        s ∉ (check_collisionsW w).ships ∧ a ∉ (check_collisionsW w).asteroids)
    ∧ (∀ (sys : SystemId) (env : TickEnv) (w : World),
        w.ships = [] → (applySystem sys env w).ships = []) := by
  refine ⟨?_, ?_, ?_⟩
  · intro a s st
    constructor
    · intro h
      unfold resolveShipPair
      rw [if_pos h]
    · intro h
      simp [resolveShipPair, h]
  · intro w a s ha hs hc
    have h2 := hit_mem_check_collisions_ship ha hs hc
    simp only [check_collisionsW]
    exact ⟨not_mem_filter_of_despawned ShipE.id w.ships _ s h2.2,
           not_mem_filter_of_despawned AsteroidE.id w.asteroids _ a h2.1⟩
  · intro sys env w hw
    cases sys <;>
      simp [applySystem, handle_inputW, shootW, move_objectsW,
        despawn_timed_outW, check_collisionsW, hw]

/-- Witness for C6 at the spec's ship-destroyed scenario: ship at the
origin (size 10), asteroid at `(15, 0)` with radius 20 — the pair scores
`-1`, both entities are gone after the flush, and applying a system (here
`shoot`) to a world with zero ships leaves zero ships. -/
theorem ship_collision_spec_witness :
    (resolveShipPair astShipHit shipHit { despawns := [], score := 0 }
        = { despawns := [] ++ [astShipHit.id, shipHit.id], score := 0 - 1 })
    ∧ shipHit ∉ (check_collisionsW worldShipHit).ships
    ∧ astShipHit ∉ (check_collisionsW worldShipHit).asteroids
    ∧ (applySystem SystemId.shoot envSample worldBulletHit).ships = [] := by
  have h1 := (ship_collision_spec.1 astShipHit shipHit { despawns := [], score := 0 }).1
    (by with_unfolding_all decide)
  have h2 := ship_collision_spec.2.1 worldShipHit astShipHit shipHit
    (by simp [worldShipHit]) (by simp [worldShipHit])
    (by with_unfolding_all decide)
  have h3 := ship_collision_spec.2.2 SystemId.shoot envSample worldBulletHit rfl
  exact ⟨h1, h2.1, h2.2, h3⟩

/-! ### Claim C7 -/

lemma shipShootRun_cons (trig : TrigOracle) (s : ShipE) (dt : ℚ)
    (rest : List ℚ) :
    shipShootRun trig s (dt :: rest)
      = (shootShipStep trig dt { s with shoot_requested := true }).2.isSome
          :: shipShootRun trig
              (shootShipStep trig dt { s with shoot_requested := true }).1 rest := by
  simp [shipShootRun]

lemma shootShipStep_true_isSome (trig : TrigOracle) (dt : ℚ) (s : ShipE)
    (hreq : s.shoot_requested = true) :
    (shootShipStep trig dt s).2.isSome = (s.shoot_timer.tick dt).finished := by
  unfold shootShipStep
  rw [hreq]
  cases hfin : (s.shoot_timer.tick dt).finished <;> simp [hfin]

lemma shootShipStep_true_timer_of_finished (trig : TrigOracle) (dt : ℚ)
    (s : ShipE) (hreq : s.shoot_requested = true)
    (hfin : (s.shoot_timer.tick dt).finished = true) :
    (shootShipStep trig dt s).1.shoot_timer
      = Timer.reset (Timer.from_seconds PLAYER_SHOOT_DELAY) := by
  unfold shootShipStep
  rw [hreq]
  simp [hfin]

lemma shootShipStep_timer_of_not_finished (trig : TrigOracle) (dt : ℚ)
    (s : ShipE) (hfin : (s.shoot_timer.tick dt).finished = false) :
    (shootShipStep trig dt s).1.shoot_timer = s.shoot_timer.tick dt := by
  unfold shootShipStep
  cases hreq : s.shoot_requested <;> simp [hfin]

lemma tick_finished_of_le {t : Timer} {dt : ℚ} (hf : t.finished = false)
    (hd : t.duration ≤ t.elapsed + dt) : (t.tick dt).finished = true := by
  unfold Timer.tick
  rw [hf]
  simp [hd]

lemma tick_not_finished {t : Timer} {dt : ℚ} (hf : t.finished = false)
    (hd : ¬ t.duration ≤ t.elapsed + dt) :
    t.tick dt = { t with elapsed := t.elapsed + dt, finished := false } := by
  unfold Timer.tick
  rw [hf]
  simp [hd]

lemma shipShootRun_first_shot :
    ∀ (dts : List ℚ) (trig : TrigOracle) (s : ShipE),
      s.shoot_timer.finished = false → ∀ j : Nat,
      (∀ k, k < j → (shipShootRun trig s dts).get? k ≠ some true) →
      (shipShootRun trig s dts).get? j = some true →
      s.shoot_timer.duration ≤ s.shoot_timer.elapsed + (dts.take (j+1)).sum := by
  intro dts
  induction dts with
  | nil =>
    intro trig s hf j hk hj
    simp [shipShootRun] at hj
  | cons dt rest ih =>
    intro trig s hf j hk hj
    have hsome : (shootShipStep trig dt { s with shoot_requested := true }).2.isSome
        = (s.shoot_timer.tick dt).finished :=
      shootShipStep_true_isSome trig dt { s with shoot_requested := true } rfl
    by_cases hd : s.shoot_timer.duration ≤ s.shoot_timer.elapsed + dt
    · cases j with
      | zero =>
        simp only [List.take_succ_cons, List.take_zero, List.sum_cons,
          List.sum_nil]
        linarith
      | succ j' =>
        exfalso
        apply hk 0 (Nat.succ_pos _)
        rw [shipShootRun_cons]
        simp [hsome, tick_finished_of_le hf hd]
    · have htick := tick_not_finished hf hd
      have hfin : (s.shoot_timer.tick dt).finished = false := by
        rw [htick]
      cases j with
      | zero =>
        rw [shipShootRun_cons] at hj
        simp [hsome, hfin] at hj
      | succ j' =>
        have htimer : (shootShipStep trig dt { s with shoot_requested := true }).1.shoot_timer
            = s.shoot_timer.tick dt :=
          shootShipStep_timer_of_not_finished trig dt _ hfin
        have hj2 : (shipShootRun trig
            (shootShipStep trig dt { s with shoot_requested := true }).1 rest).get? j'
            = some true := by
          rw [shipShootRun_cons] at hj
          simpa using hj
        have hk2 : ∀ k, k < j' → (shipShootRun trig
            (shootShipStep trig dt { s with shoot_requested := true }).1 rest).get? k
            ≠ some true := by
          intro k hkk
          have h5 := hk (k + 1) (by omega)
          rw [shipShootRun_cons] at h5
          simpa using h5
        have h6 := ih trig _ (by rw [htimer, htick]) j' hk2 hj2
        rw [htimer, htick] at h6
        dsimp at h6
        simp only [List.take_succ_cons, List.sum_cons]
        linarith

/-- C7: under continuous fire intent, between any two consecutive bullet
spawns of the same ship — spawns at tick indices `i < j` with no spawn in
between — the simulated time that elapses (the sum of the tick `dt`s from
tick `i+1` through tick `j`) is at least `PLAYER_SHOOT_DELAY`, because the
cooldown is reset to `PLAYER_SHOOT_DELAY` at tick `i` and the next spawn
needs it to finish. -/
theorem fire_rate_bound :
    ∀ (dts : List ℚ) (trig : TrigOracle) (s : ShipE) (i j : Nat),
      i < j →
      (shipShootRun trig s dts).get? i = some true →
      (shipShootRun trig s dts).get? j = some true →
      (∀ k, i < k → k < j → (shipShootRun trig s dts).get? k ≠ some true) →
      PLAYER_SHOOT_DELAY ≤ (((dts.take (j+1)).drop (i+1)).sum) := by
  intro dts
  induction dts with
  | nil =>
    intro trig s i j hij hi hj hk
    simp [shipShootRun] at hi
  | cons dt rest ih =>
    intro trig s i j hij hi hj hk
    obtain ⟨j', rfl⟩ : ∃ j', j = j' + 1 := ⟨j - 1, by omega⟩
    cases i with
    | zero =>
      have hsome : (shootShipStep trig dt { s with shoot_requested := true }).2.isSome
          = true := by
        rw [shipShootRun_cons] at hi
        simpa using hi
      have hfin : (({ s with shoot_requested := true } : ShipE).shoot_timer.tick dt).finished
          = true := by
        rw [← shootShipStep_true_isSome trig dt { s with shoot_requested := true } rfl]
        exact hsome
      have htimer : (shootShipStep trig dt { s with shoot_requested := true }).1.shoot_timer
          = Timer.reset (Timer.from_seconds PLAYER_SHOOT_DELAY) :=
        shootShipStep_true_timer_of_finished trig dt _ rfl hfin
      have hj2 : (shipShootRun trig
          (shootShipStep trig dt { s with shoot_requested := true }).1 rest).get? j'
          = some true := by
        rw [shipShootRun_cons] at hj
        simpa using hj
      have hk2 : ∀ k, k < j' → (shipShootRun trig
          (shootShipStep trig dt { s with shoot_requested := true }).1 rest).get? k
          ≠ some true := by
        intro k hkk
        have h5 := hk (k + 1) (by omega) (by omega)
        rw [shipShootRun_cons] at h5
        simpa using h5
      have hmain := shipShootRun_first_shot rest trig _ (by rw [htimer]; rfl) j' hk2 hj2
      rw [htimer] at hmain
      simp only [Timer.reset, Timer.from_seconds] at hmain
      simp only [List.take_succ_cons, List.drop_succ_cons, List.drop_zero]
      linarith
    | succ i' =>
      have hi2 : (shipShootRun trig
          (shootShipStep trig dt { s with shoot_requested := true }).1 rest).get? i'
          = some true := by
        rw [shipShootRun_cons] at hi
        simpa using hi
      have hj2 : (shipShootRun trig
          (shootShipStep trig dt { s with shoot_requested := true }).1 rest).get? j'
          = some true := by
        rw [shipShootRun_cons] at hj
        simpa using hj
      have hk2 : ∀ k, i' < k → k < j' → (shipShootRun trig
          (shootShipStep trig dt { s with shoot_requested := true }).1 rest).get? k
          ≠ some true := by
        intro k h1 h2
        have h5 := hk (k + 1) (by omega) (by omega)
        rw [shipShootRun_cons] at h5
        simpa using h5
      have h6 := ih trig _ i' j' (by omega) hi2 hj2 hk2
      simpa only [List.take_succ_cons, List.drop_succ_cons] using h6

/-- Witness for C7: starting right after a shot (a fresh half-second
cooldown) with quarter-second ticks, spawns happen at tick indices 1 and 3;
between those consecutive spawns exactly half a second of simulated time
elapses, which meets the `PLAYER_SHOOT_DELAY` bound. -/
theorem fire_rate_bound_witness :
    PLAYER_SHOOT_DELAY
      ≤ (((([1/4, 1/4, 1/4, 1/4] : List ℚ).take (3+1)).drop (1+1)).sum) := by
  refine fire_rate_bound [1/4, 1/4, 1/4, 1/4] trigSample shipReady 1 3 (by omega)
    ?_ ?_ ?_
  · with_unfolding_all decide
  · with_unfolding_all decide
  · intro k h1 h2
    have hk2 : k = 2 := by omega
    subst hk2
    with_unfolding_all decide

/-! ### Claim C8 -/

/-- Counterexample to C8: `AsteroidsPlugin` declares no ordering
constraints (plain `add_system` calls, no `before`/`after`/`chain`), so the
reversed registration order — in which `shoot` runs before `handle_input`,
and `check_collisions` runs before `move_objects` — is also a valid
per-tick execution order; the phase order the claim states is therefore not
guaranteed by the program. -/
theorem tick_phase_order_not_guaranteed :
    validTickOrder addedSystems.reverse
    ∧ ¬ precedesIn addedSystems.reverse SystemId.handle_input SystemId.shoot
    ∧ ¬ precedesIn addedSystems.reverse SystemId.move_objects
        SystemId.check_collisions := by
  refine ⟨⟨List.reverse_perm _, ?_⟩, ?_, ?_⟩
  · intro p hp
    simp [orderingConstraints] at hp
  · decide
  · decide

/-- C8 amended: the plugin registers its per-frame systems with plain
`add_system` calls and declares no ordering constraints, so every
permutation of the registered systems is a valid per-tick execution order —
no intra-tick phase ordering (input → spawn → motion → lifetime →
collision → presentation) is guaranteed. -/
theorem any_system_order_valid :
    ∀ l : List SystemId, l.Perm addedSystems → validTickOrder l := by
  intro l h
  refine ⟨h, ?_⟩
  intro p hp
  simp [orderingConstraints] at hp

/-- Witness for C8's amended claim: the registration order itself is a
valid per-tick execution order. -/
theorem any_system_order_valid_witness : validTickOrder addedSystems :=
  any_system_order_valid addedSystems (List.Perm.refl _)

/-! ### Claim C9 -/

lemma timerDefault_tick_finished (dt : ℚ) (h : 0 ≤ dt) :
    (Timer.timerDefault.tick dt).finished = true := by
  simp [Timer.tick, Timer.timerDefault, h]

/-- C9: the ship spawns with `Ship::default()`, whose shoot timer is the
default zero-duration timer; after its first tick (with any nonnegative
`dt`) that timer is already finished, so a ship holding fire with the
default timer spawns a bullet immediately — the `PLAYER_SHOOT_DELAY` gate
only applies after the first successful shot (which installs the
half-second timer). -/
theorem initial_shot_immediate :
    initialShip.shoot_timer = Timer.timerDefault
    ∧ Timer.timerDefault.duration = 0
    ∧ (∀ dt : ℚ, 0 ≤ dt → (Timer.timerDefault.tick dt).finished = true)
    ∧ (∀ (trig : TrigOracle) (dt : ℚ) (s : ShipE), 0 ≤ dt →
        s.shoot_timer = Timer.timerDefault → s.shoot_requested = true →
        (shootShipStep trig dt s).2.isSome = true) := by
  refine ⟨rfl, rfl, timerDefault_tick_finished, ?_⟩
  intro trig dt s hd hst hreq
  rw [shootShipStep_true_isSome trig dt s hreq, hst]
  exact timerDefault_tick_finished dt hd

/-- Witness for C9: on the very first tick (a 1/60-second frame, far less
than the half-second delay) the freshly spawned ship holding fire spawns a
bullet immediately. -/
theorem initial_shot_immediate_witness :
    (shootShipStep trigSample (1/60) shipFresh).2.isSome = true :=
  initial_shot_immediate.2.2.2 trigSample (1/60) shipFresh (by norm_num) rfl rfl

/-! ### Claim C10 -/

/-- C10: the asteroid spawn loop of `setup` skips every candidate failing
the clearance test, and any position it returns has squared distance to the
player spawn exceeding `(PLAYER_CLEAR_RADIUS + ASTEROID_RADIUS)^2` —
equivalently, Euclidean distance strictly greater than
`PLAYER_CLEAR_RADIUS + ASTEROID_RADIUS = 120`. -/
theorem asteroid_spawn_clearance :
    (∀ (pos : Vec3) (cands : List Vec3), spawnCandidateOk pos = false →
      asteroid_spawn_loop (pos :: cands) = asteroid_spawn_loop cands)
    ∧ (∀ (cands : List Vec3) (p : Vec3), asteroid_spawn_loop cands = some p →
        (PLAYER_CLEAR_RADIUS + ASTEROID_RADIUS) ^ 2 < distSq p player_position
        ∧ ((PLAYER_CLEAR_RADIUS + ASTEROID_RADIUS : ℚ) : ℝ)
            < Real.sqrt ((distSq p player_position : ℚ) : ℝ)) := by
  constructor
  · intro pos cands h
    simp [asteroid_spawn_loop, h]
  · intro cands
    induction cands with
    | nil =>
      intro p h
      simp [asteroid_spawn_loop] at h
    | cons c rest ih =>
      intro p h
      cases hc : spawnCandidateOk c with
      | true =>
        have hp : c = p := by
          simp only [asteroid_spawn_loop, hc, if_true, Option.some.injEq] at h
          exact h
        subst hp
        constructor
        · have h2 := hc
          unfold spawnCandidateOk dist_gt at h2
          rw [decide_eq_true_eq] at h2
          rcases h2 with h3 | h3
          · exfalso
            norm_num [PLAYER_CLEAR_RADIUS, ASTEROID_RADIUS] at h3
          · exact h3
        · exact (dist_gt_eq_true_iff c player_position
            (PLAYER_CLEAR_RADIUS + ASTEROID_RADIUS)).mp hc
      | false =>
        have h2 : asteroid_spawn_loop (c :: rest) = asteroid_spawn_loop rest := by
          simp [asteroid_spawn_loop, hc]
        rw [h2] at h
        exact ih p h

/-- Witness for C10: the loop rejects the origin (distance 0, inside the
clear radius) and returns `(200, 0, 0)`, whose squared distance 40000
exceeds `120^2 = 14400`. -/
theorem asteroid_spawn_clearance_witness :
    asteroid_spawn_loop [⟨0, 0, 0⟩, ⟨200, 0, 0⟩]
        = asteroid_spawn_loop [⟨200, 0, 0⟩]
    ∧ (PLAYER_CLEAR_RADIUS + ASTEROID_RADIUS) ^ 2
        < distSq ⟨200, 0, 0⟩ player_position := by
  refine ⟨asteroid_spawn_clearance.1 ⟨0, 0, 0⟩ [⟨200, 0, 0⟩]
    (by with_unfolding_all decide), ?_⟩
  exact (asteroid_spawn_clearance.2 [⟨0, 0, 0⟩, ⟨200, 0, 0⟩] ⟨200, 0, 0⟩
    (by with_unfolding_all decide)).1

end Asteroids
